import Mathlib

/-! Verification development for the Sukhayu-Healthcare symptom checker
(src/main.py).  The program is a single request/response transform:
it sends a prompt to an external model, parses the raw text reply as
JSON (tolerating markdown code-fence markers), checks the four required
keys, clamps the disease and zone vocabulary to closed sets, and maps
the validated result to a public response shape.

The embedding below models the reply-processing pipeline of
classify_with_gemini (src/main.py lines 157-190) and of the analyze
endpoint (lines 221-245) as total Lean functions of the raw model reply.
Python strings are modeled as List Char; Python exceptions are modeled
by an explicit error type and Except.
-/

namespace SymptomChecker

/-- JSON values as produced by the json.loads call in src/main.py.
Numbers are kept as their source lexeme: no code path of the program
compares numeric values, only membership against string vocabularies,
so the lexeme representation is observationally adequate here.
Objects keep their key/value pairs in source order; lookup below gives
the last binding of a key, matching the overwrite semantics of the
Python dict built by the decoder. -/
inductive JValue : Type where
  | jnull : JValue
  | jbool : Bool → JValue
  | jnum : List Char → JValue
  | jstr : List Char → JValue
  | jarr : List JValue → JValue
  | jobj : List (List Char × JValue) → JValue

/-- The JSON whitespace characters accepted by the Python json decoder. -/
def jsonWs (c : Char) : Bool :=
  c == ' ' || c == '\t' || c == '\n' || c == '\r'

/-- The (ASCII) whitespace characters removed by the Python str.strip
calls on lines 157 and 166 of src/main.py. -/
def isPyWs (c : Char) : Bool :=
  c == ' ' || c == '\t' || c == '\n' || c == '\r' || c == '\x0b' || c == '\x0c'

/-- Remove trailing whitespace, the right half of Python str.strip. -/
def dropTrailingWs (l : List Char) : List Char :=
  (l.reverse.dropWhile isPyWs).reverse

/-- Python str.strip with no arguments: remove leading and trailing
whitespace. -/
def pyStrip (l : List Char) : List Char :=
  dropTrailingWs (l.dropWhile isPyWs)

/-- Substring test: does pat occur as a contiguous substring of s?
This is the semantics of the Python expression pat in s for strings. -/
def containsSub (pat : List Char) : List Char → Bool
  | [] => pat.isPrefixOf []
  | c :: rest => pat.isPrefixOf (c :: rest) || containsSub pat rest

/-- Fuel-driven worker for replaceAll.  Scans left to right; at each
position, if pat matches it is replaced by rep and scanning resumes
after the match, otherwise one character is kept.  This is the
semantics of Python str.replace for a nonempty pattern (the program
only ever replaces the nonempty patterns three-backticks-json and
three-backticks).  One unit of fuel is spent per step and every step
consumes at least one input character, so fuel equal to the input
length always suffices; exhausted fuel returns the remaining input
unchanged. -/
def replaceAllF (pat rep : List Char) : Nat → List Char → List Char
  | _, [] => []
  | 0, s => s
  | fuel+1, c :: rest =>
    if pat.isPrefixOf (c :: rest) then
      rep ++ replaceAllF pat rep fuel ((c :: rest).drop pat.length)
    else
      c :: replaceAllF pat rep fuel rest

/-- Python str.replace pat rep for a nonempty pattern. -/
def replaceAll (pat rep s : List Char) : List Char :=
  replaceAllF pat rep s.length s

/-- Hex digit value, for unicode escapes in JSON strings. -/
def hexVal (c : Char) : Option Nat :=
  if '0' ≤ c ∧ c ≤ '9' then some (c.toNat - 48)
  else if 'a' ≤ c ∧ c ≤ 'f' then some (c.toNat - 87)
  else if 'A' ≤ c ∧ c ≤ 'F' then some (c.toNat - 55)
  else none

/-- Single character escapes of JSON strings. -/
def escChar (e : Char) : Option Char :=
  if e = '"' then some '"'
  else if e = '\\' then some '\\'
  else if e = '/' then some '/'
  else if e = 'b' then some '\x08'
  else if e = 'f' then some '\x0c'
  else if e = 'n' then some '\n'
  else if e = 'r' then some '\r'
  else if e = 't' then some '\t'
  else none

/-- Body of a JSON string literal, after the opening quote: returns the
decoded characters and the input following the closing quote.  Raw
control characters below 0x20 are rejected, as in the strict mode the
program uses.  Each step consumes at least one character, so fuel equal
to the remaining input length suffices. -/
def parseStringBodyF : Nat → List Char → Option (List Char × List Char)
  | _, [] => none
  | 0, _ => none
  | fuel+1, c :: rest =>
    if c = '"' then some ([], rest)
    else if c = '\\' then
      match rest with
      | [] => none
      | e :: r2 =>
        if e = 'u' then
          match r2 with
          | h1 :: h2 :: h3 :: h4 :: r3 =>
            match hexVal h1, hexVal h2, hexVal h3, hexVal h4 with
            | some a, some b, some c2, some d =>
              match parseStringBodyF fuel r3 with
              | some (cs, r4) =>
                some (Char.ofNat (((a * 16 + b) * 16 + c2) * 16 + d) :: cs, r4)
              | none => none
            | _, _, _, _ => none
          | _ => none
        else
          match escChar e with
          | some ec =>
            match parseStringBodyF fuel r2 with
            | some (cs, r4) => some (ec :: cs, r4)
            | none => none
          | none => none
    else if c.toNat < 32 then none
    else
      match parseStringBodyF fuel rest with
      | some (cs, r4) => some (c :: cs, r4)
      | none => none

/-- Wrapper giving parseStringBodyF enough fuel. -/
def parseStringBody (l : List Char) : Option (List Char × List Char) :=
  parseStringBodyF l.length l

/-- Integer part of a JSON number: a single zero, or a nonzero digit
followed by digits, exactly the int group of the decoder regex. -/
def parseIntDigits (s : List Char) : Option (List Char × List Char) :=
  match s with
  | '0' :: rest => some (['0'], rest)
  | _ =>
    let p := s.span Char.isDigit
    if p.1 = [] then none else some (p.1, p.2)

/-- A JSON number starting at s: returns the matched lexeme and the rest
of the input, mirroring the maximal match of the decoder number regex
(optional minus, int part, optional fraction, optional exponent). -/
def parseNumber (s : List Char) : Option (List Char × List Char) :=
  let sgnP : List Char × List Char :=
    match s with
    | '-' :: r => (['-'], r)
    | _ => ([], s)
  match parseIntDigits sgnP.2 with
  | none => none
  | some (ip, s2) =>
    let fracP : List Char × List Char :=
      match s2 with
      | '.' :: r =>
        let dsP := r.span Char.isDigit
        if dsP.1 = [] then ([], s2) else ('.' :: dsP.1, dsP.2)
      | _ => ([], s2)
    let s3 := fracP.2
    let expP : List Char × List Char :=
      match s3 with
      | e :: r =>
        if e = 'e' ∨ e = 'E' then
          let sgn2P : List Char × List Char :=
            match r with
            | c :: rr => if c = '+' ∨ c = '-' then ([c], rr) else ([], c :: rr)
            | [] => ([], [])
          let dsP := sgn2P.2.span Char.isDigit
          if dsP.1 = [] then ([], s3) else (e :: (sgn2P.1 ++ dsP.1), dsP.2)
        else ([], s3)
      | [] => ([], s3)
    some (sgnP.1 ++ ip ++ fracP.1 ++ expP.1, expP.2)

/-- Recursion mode of the JSON decoder: a value, the inside of an
object (just after the opening brace, whitespace skipped), the member
list of an object with the members decoded so far, and the same two
modes for arrays. -/
inductive PMode : Type where
  | value : PMode
  | object : PMode
  | members : List (List Char × JValue) → PMode
  | array : PMode
  | elems : List JValue → PMode

/-- Recursive descent JSON decoder, a shallow embedding of the Python
json.loads grammar (RFC 8259 plus the NaN and Infinity literals the
Python decoder accepts).  Structural on fuel; parseJson below supplies
fuel proportional to the input length, which is always sufficient since
every constant depth of recursion consumes input characters. -/
def parseF : Nat → PMode → List Char → Option (JValue × List Char)
  | 0, _, _ => none
  | _+1, .value, [] => none
  | fuel+1, .value, c :: rest =>
    if c = '\x7b' then parseF fuel .object (rest.dropWhile jsonWs)
    else if c = '[' then parseF fuel .array (rest.dropWhile jsonWs)
    else if c = '"' then
      match parseStringBody rest with
      | some (cs, r2) => some (.jstr cs, r2)
      | none => none
    else if c = 't' then
      if rest.take 3 = "rue".data then some (.jbool true, rest.drop 3) else none
    else if c = 'f' then
      if rest.take 4 = "alse".data then some (.jbool false, rest.drop 4) else none
    else if c = 'n' then
      if rest.take 3 = "ull".data then some (.jnull, rest.drop 3) else none
    else if c = 'N' then
      if rest.take 2 = "aN".data then some (.jnum "NaN".data, rest.drop 2) else none
    else if c = 'I' then
      if rest.take 7 = "nfinity".data then some (.jnum "Infinity".data, rest.drop 7)
      else none
    else if c = '-' ∧ rest.take 8 = "Infinity".data then
      some (.jnum "-Infinity".data, rest.drop 8)
    else if c = '-' ∨ c.isDigit then
      match parseNumber (c :: rest) with
      | some (lex, r2) => some (.jnum lex, r2)
      | none => none
    else none
  | _+1, .object, [] => none
  | fuel+1, .object, c :: rest =>
    if c = '\x7d' then some (.jobj [], rest)
    else parseF fuel (.members []) (c :: rest)
  | _+1, .members _, [] => none
  | fuel+1, .members acc, c :: rest =>
    if c = '"' then
      match parseStringBody rest with
      | some (key, r2) =>
        match r2.dropWhile jsonWs with
        | ':' :: r3 =>
          match parseF fuel .value (r3.dropWhile jsonWs) with
          | some (v, r4) =>
            match r4.dropWhile jsonWs with
            | ',' :: r5 => parseF fuel (.members (acc ++ [(key, v)])) (r5.dropWhile jsonWs)
            | '\x7d' :: r5 => some (.jobj (acc ++ [(key, v)]), r5)
            | _ => none
          | none => none
        | _ => none
      | none => none
    else none
  | _+1, .array, [] => none
  | fuel+1, .array, c :: rest =>
    if c = ']' then some (.jarr [], rest)
    else parseF fuel (.elems []) (c :: rest)
  | fuel+1, .elems acc, s =>
    match parseF fuel .value s with
    | some (v, r2) =>
      match r2.dropWhile jsonWs with
      | ',' :: r3 => parseF fuel (.elems (acc ++ [v])) (r3.dropWhile jsonWs)
      | ']' :: r3 => some (.jarr (acc ++ [v]), r3)
      | _ => none
    | none => none

/-- Python json.loads on a string: skip surrounding JSON whitespace,
decode one value, and require that nothing but whitespace follows.
none models a raised json.JSONDecodeError. -/
def parseJson (l : List Char) : Option JValue :=
  match parseF (5 * l.length + 5) .value (l.dropWhile jsonWs) with
  | some (v, rest) => if rest.dropWhile jsonWs = [] then some v else none
  | none => none

/-- The 15-disease vocabulary, src/main.py lines 56-72, verbatim. -/
def DISEASES : List String :=
  ["Viral Fever (without warning signs)",
   "Gastritis / Acid Reflux",
   "Migraine / Tension Headache",
   "Skin Infection / Cellulitis (mild)",
   "Moderate Hypertension (BP 140–160/90–100)",
   "Pregnancy Complications (Bleeding / Pain)",
   "Severe Dehydration",
   "Snake Bite (Suspected)",
   "Tuberculosis (with cough >2 weeks)",
   "Seizure / Fits",
   "Heart Attack",
   "Unconscious / Coma",
   "Stroke (CVA)",
   "Severe Head Injury",
   "Severe Trauma with Bleeding / Fracture"]

/-- The allowed zones, src/main.py line 74. -/
def ALLOWED_ZONES : List String := ["Red", "Orange", "Yellow"]

/-- The zone label table, src/main.py lines 76-80. -/
def ZONE_LABELS : List (String × String) :=
  [("Red", "Zone: 🔴 Red – उच्च धोक्याची पातळी"),
   ("Orange", "Zone: 🟠 Orange – मध्यम धोक्याची पातळी"),
   ("Yellow", "Zone: 🟡 Yellow – कमी धोक्याची पातळी")]

/-- The four required keys, in the exact order of the loop on
src/main.py line 170. -/
def requiredKeys : List String :=
  ["disease", "zone", "symptoms_line", "action_line"]

/-- Python exceptions that can escape the reply-processing pipeline. -/
inductive PyError : Type where
  | jsonDecodeError : PyError
  | typeError : PyError
  | missingKeyError : String → PyError
  | keyError : String → PyError
  | validationError : PyError
deriving DecidableEq

/-- Last binding of a key in a decoded object, the lookup semantics of
the Python dict built by json.loads (later duplicate keys overwrite
earlier ones). -/
def lookupLast (kvs : List (List Char × JValue)) (k : List Char) : Option JValue :=
  match kvs with
  | [] => none
  | (k1, v) :: rest =>
    match lookupLast rest k with
    | some w => some w
    | none => if k1 = k then some v else none

/-- Does the decoded object bind the given key? -/
def hasKey (kvs : List (List Char × JValue)) (k : String) : Bool :=
  (lookupLast kvs k.data).isSome

/-- The Python membership test key in data, for each possible type of
the decoded value: dict key lookup, list membership (a list element
equals the key string only if it is that string), substring test for
strings, and a TypeError (modeled as none) for the other types. -/
def pyContains (data : JValue) (k : List Char) : Option Bool :=
  match data with
  | .jobj kvs => some (lookupLast kvs k).isSome
  | .jarr xs => some (xs.any (fun x =>
      match x with
      | .jstr s => decide (s = k)
      | _ => false))
  | .jstr s => some (containsSub k s)
  | _ => none

/-- The key check loop of src/main.py lines 170-172: for each required
key in order, test key in data and raise on the first missing one.
A TypeError from the membership test on a non-container propagates. -/
def findMissingKey (data : JValue) : List String → Except PyError Unit
  | [] => .ok ()
  | k :: ks =>
    match pyContains data k.data with
    | none => .error .typeError
    | some true => findMissingKey data ks
    | some false => .error (.missingKeyError k)

/-- The disease clamp of src/main.py lines 178-180: a decoded value
that is not exactly one of the 15 allowed strings (string comparison;
a non-string value is never equal to a string) is replaced by the
default disease. -/
def clampDisease (dv : JValue) : List Char :=
  match dv with
  | .jstr s =>
    if s ∈ DISEASES.map String.data then s
    else "Viral Fever (without warning signs)".data
  | _ => "Viral Fever (without warning signs)".data

/-- The zone clamp of src/main.py lines 182-183. -/
def clampZone (zv : JValue) : List Char :=
  match zv with
  | .jstr s => if s ∈ ALLOWED_ZONES.map String.data then s else "Yellow".data
  | _ => "Yellow".data

/-- Is the decoded disease value one of the 15 allowed strings?  Used
to state the vocabulary hypotheses of the claims. -/
def isAllowedDisease (dv : JValue) : Bool :=
  match dv with
  | .jstr s => decide (s ∈ DISEASES.map String.data)
  | _ => false

/-- Is the decoded zone value one of the 3 allowed strings? -/
def isAllowedZone (zv : JValue) : Bool :=
  match zv with
  | .jstr s => decide (s ∈ ALLOWED_ZONES.map String.data)
  | _ => false

/-- The validated result dict returned on src/main.py lines 185-190. -/
structure TriageResult : Type where
  disease : List Char
  zone : List Char
  symptoms_line : JValue
  action_line : JValue

/-- Key validation and vocabulary clamp, src/main.py lines 170-190,
applied to the decoded reply: check the four required keys in order,
then read the four values (a subscript on a decoded non-dict raises a
TypeError, line 175) and clamp disease and zone. -/
def validateData (data : JValue) : Except PyError TriageResult :=
  match findMissingKey data requiredKeys with
  | .error e => .error e
  | .ok _ =>
    match data with
    | .jobj kvs =>
      match lookupLast kvs ("disease".data), lookupLast kvs ("zone".data),
            lookupLast kvs ("symptoms_line".data), lookupLast kvs ("action_line".data) with
      | some dv, some zv, some sv, some av =>
        .ok ⟨clampDisease dv, clampZone zv, sv, av⟩
      | _, _, _, _ => .error (.keyError ("disease"))
    | _ => .error .typeError

/-- The fallback cleaning of src/main.py line 166: remove every
occurrence of the two fence markers from the whole text, then strip. -/
def cleanedText (rawText : List Char) : List Char :=
  pyStrip (replaceAll "```".data [] (replaceAll "```json".data [] rawText))

/-- The parse of the raw model reply, src/main.py lines 157 and
162-167: strip the raw reply, try a direct JSON parse, and on failure
parse the cleaned text; a second failure raises (the JSONDecodeError
of the second json.loads propagates, which the specification calls
MalformedModelOutput). -/
def parseReply (raw : List Char) : Except PyError JValue :=
  let rawText := pyStrip raw
  match parseJson rawText with
  | some data => .ok data
  | none =>
    match parseJson (cleanedText rawText) with
    | some data => .ok data
    | none => .error .jsonDecodeError

/-- The whole reply-processing pipeline of classify_with_gemini
(src/main.py lines 157-190) as a function of the raw model reply text. -/
def classifyValidate (raw : List Char) : Except PyError TriageResult :=
  match parseReply raw with
  | .ok data => validateData data
  | .error e => .error e

/-- The public response model, src/main.py lines 213-218. -/
structure AnalyzeResponse : Type where
  zone : List Char
  zone_label : List Char
  disease : List Char
  patient_symptoms_line : List Char
  patient_action_line : List Char

/-- Subscript access on the dict returned by classify_with_gemini,
which binds exactly the keys disease, zone, symptoms_line and
action_line (src/main.py lines 185-190). -/
def resultGet (r : TriageResult) (k : String) : Option JValue :=
  if k = "disease" then some (.jstr r.disease)
  else if k = "zone" then some (.jstr r.zone)
  else if k = "symptoms_line" then some r.symptoms_line
  else if k = "action_line" then some r.action_line
  else none

/-- ZONE_LABELS.get of src/main.py line 237, with its generic fallback
label for a zone missing from the table. -/
def zoneLabelsGet (z : List Char) : List Char :=
  match ZONE_LABELS.find? (fun p => p.fst.data == z) with
  | some p => p.snd.data
  | none => "Zone: ".data ++ z

/-- Validation of a response model string field: the response model
declares its five fields as str, so a non-string value is rejected. -/
def asResponseStr : JValue → Option (List Char)
  | .jstr s => some s
  | _ => none

/-- Construction of the public response, src/main.py lines 236-244:
read the zone, look up its label, and build the response model. -/
def composeResponse (r : TriageResult) : Except PyError AnalyzeResponse :=
  match asResponseStr r.symptoms_line, asResponseStr r.action_line with
  | some sl, some al => .ok ⟨r.zone, zoneLabelsGet r.zone, r.disease, sl, al⟩
  | _, _ => .error .validationError

/-- The analyze endpoint, src/main.py lines 221-245, as a function of
the raw model reply (the complaint only feeds the prompt of the
external model and the log line, so the response logic depends on the
reply alone).  After classification, the logging f-strings on lines
232-233 subscript the result dict; line 233 reads the key
patient_symptoms_line, which the result dict never binds, so that
access raises a KeyError before the response is composed. -/
def analyze (modelReply : List Char) : Except PyError AnalyzeResponse :=
  match classifyValidate modelReply with
  | .error e => .error e
  | .ok result =>
    match resultGet result ("zone") with
    | none => .error (.keyError ("zone"))
    | some _ =>
      match resultGet result ("patient_symptoms_line") with
      | none => .error (.keyError ("patient_symptoms_line"))
      | some _ => composeResponse result

/-- Wrapping a text in the markdown code fences the specification
describes: a json-tagged opening fence line and a closing fence line. -/
def fenceWrap (s : List Char) : List Char :=
  "```json\n".data ++ s ++ "\n```".data

/-- The backtick character (codepoint 96), the character of the
markdown fence markers. -/
def btChar : Char := Char.ofNat 96

/-- Number of leading backtick characters of a text, used to reason
about occurrences of the fence marker. -/
def leadBT (l : List Char) : Nat :=
  (l.takeWhile (fun c => c == btChar)).length

/-- The model reply of the success-path example of the specification. -/
def heartAttackReply : String :=
  "\x7b\"disease\":\"Heart Attack\",\"zone\":\"Red\",\"symptoms_line\":\"X\",\"action_line\":\"Y\"\x7d"

/-- A completely non-JSON model reply (plain prose). -/
def proseReply : String := "I am sorry, I cannot help with that."

/-- A model reply that parses to a JSON object missing three of the
four required keys. -/
def missingKeysReply : String := "\x7b\"disease\":\"X\"\x7d"

/-- A fenced model reply whose JSON string value itself contains a
fence marker. -/
def c9ExampleReply : String := "```json\n\x7b\"note\":\"use ``` fences\"\x7d\n```"

/-! Basic facts about substrings and the replace scan -/

theorem isPrefixOf_eq_true_iff (p l : List Char) :
    p.isPrefixOf l = true ↔ ∃ t, l = p ++ t := by
  induction p generalizing l with
  | nil => simp [List.isPrefixOf]
  | cons a as ih =>
    cases l with
    | nil => simp [List.isPrefixOf]
    | cons b bs =>
      simp only [List.isPrefixOf, Bool.and_eq_true, beq_iff_eq, ih, List.cons_append,
        List.cons.injEq]
      constructor
      · rintro ⟨hab, t, ht⟩
        exact ⟨t, hab.symm, ht⟩
      · rintro ⟨t, hba, ht⟩
        exact ⟨hba.symm, t, ht⟩

theorem containsSub_eq_true_iff (pat s : List Char) :
    containsSub pat s = true ↔ ∃ a b, s = a ++ pat ++ b := by
  induction s with
  | nil =>
    simp only [containsSub, isPrefixOf_eq_true_iff]
    constructor
    · rintro ⟨t, ht⟩
      exact ⟨[], t, by simpa using ht⟩
    · rintro ⟨a, b, hab⟩
      have h0 := hab.symm
      simp only [List.append_assoc, List.append_eq_nil] at h0
      exact ⟨[], by simp [h0.2.1]⟩
  | cons c rest ih =>
    simp only [containsSub, Bool.or_eq_true, ih, isPrefixOf_eq_true_iff]
    constructor
    · rintro (⟨t, ht⟩ | ⟨a, b, hab⟩)
      · exact ⟨[], t, by simpa using ht⟩
      · exact ⟨c :: a, b, by simp [hab]⟩
    · rintro ⟨a, b, hab⟩
      cases a with
      | nil => exact Or.inl ⟨b, by simpa using hab⟩
      | cons a0 a1 =>
        right
        simp only [List.cons_append, List.cons.injEq] at hab
        exact ⟨a1, b, hab.2⟩

theorem containsSub_of_middle (pat m a b : List Char) (h : containsSub pat m = true) :
    containsSub pat (a ++ m ++ b) = true := by
  rw [containsSub_eq_true_iff] at h ⊢
  obtain ⟨x, y, hxy⟩ := h
  exact ⟨a ++ x, y ++ b, by simp [hxy, List.append_assoc]⟩

theorem containsSub_append_pat (p1 t s : List Char)
    (h : containsSub (p1 ++ t) s = true) : containsSub p1 s = true := by
  rw [containsSub_eq_true_iff] at h ⊢
  obtain ⟨a, b, hab⟩ := h
  exact ⟨a, t ++ b, by simp [hab, List.append_assoc]⟩

theorem dropTrailingWs_decomp (d : List Char) :
    d = dropTrailingWs d ++ (d.reverse.takeWhile isPyWs).reverse := by
  unfold dropTrailingWs
  conv_lhs => rw [← List.reverse_reverse d,
    ← List.takeWhile_append_dropWhile isPyWs d.reverse]
  rw [List.reverse_append]

theorem pyStrip_decomp (l : List Char) : ∃ a b, l = a ++ pyStrip l ++ b := by
  refine ⟨l.takeWhile isPyWs, ((l.dropWhile isPyWs).reverse.takeWhile isPyWs).reverse, ?_⟩
  unfold pyStrip
  conv_lhs => rw [← List.takeWhile_append_dropWhile isPyWs l,
    dropTrailingWs_decomp (l.dropWhile isPyWs)]
  rw [List.append_assoc]

theorem containsSub_pyStrip (pat m : List Char) (h : containsSub pat m = false) :
    containsSub pat (pyStrip m) = false := by
  cases hc : containsSub pat (pyStrip m) with
  | false => rfl
  | true =>
    obtain ⟨a, b, hab⟩ := pyStrip_decomp m
    have hm : containsSub pat m = true := by
      rw [hab]
      exact containsSub_of_middle pat (pyStrip m) a b hc
    rw [hm] at h
    exact absurd h (by simp)

theorem replaceAllF_zero (pat rep s : List Char) : replaceAllF pat rep 0 s = s := by
  cases s <;> rfl

theorem replaceAllF_no_match (pat rep : List Char) :
    ∀ (fuel : Nat) (s : List Char), containsSub pat s = false →
      replaceAllF pat rep fuel s = s := by
  intro fuel
  induction fuel with
  | zero => intro s _; exact replaceAllF_zero pat rep s
  | succ f ih =>
    intro s h
    cases s with
    | nil => rfl
    | cons c rest =>
      simp only [containsSub, Bool.or_eq_false_iff] at h
      simp only [replaceAllF]
      rw [if_neg (by simp [h.1]), ih rest h.2]

theorem isPrefixOf_append_cons (pat : List Char) (c : Char) (hc : c ∉ pat) :
    ∀ (s u : List Char), pat.isPrefixOf (s ++ c :: u) = true →
      pat.isPrefixOf s = true := by
  induction pat with
  | nil => intro s u _; simp [List.isPrefixOf_iff_prefix]
  | cons a as ih =>
    intro s u h
    cases s with
    | nil =>
      exfalso
      simp only [List.nil_append, List.isPrefixOf, Bool.and_eq_true, beq_iff_eq] at h
      exact hc (by simp [← h.1])
    | cons b bs =>
      simp only [List.cons_append, List.isPrefixOf, Bool.and_eq_true] at h ⊢
      exact ⟨h.1, ih (fun hmem => hc (List.mem_cons_of_mem a hmem)) bs u h.2⟩

theorem replaceAllF_split (pat rep : List Char) (hne : pat ≠ [])
    (hnl : ('\n') ∉ pat) :
    ∀ (s : List Char), containsSub pat s = false →
      ∀ (fuel : Nat) (u : List Char),
        replaceAllF pat rep fuel (s ++ '\n' :: u) =
          s ++ '\n' :: replaceAllF pat rep (fuel - (s.length + 1)) u := by
  intro s
  induction s with
  | nil =>
    intro _ fuel u
    cases fuel with
    | zero => simp [replaceAllF_zero]
    | succ f =>
      simp only [List.nil_append, replaceAllF]
      rw [if_neg]
      · simp
      · cases pat with
        | nil => exact absurd rfl hne
        | cons p pt =>
          simp only [List.isPrefixOf, Bool.and_eq_true, beq_iff_eq]
          rintro ⟨h1, -⟩
          exact hnl (by simp [h1])
  | cons ch s' ih =>
    intro h fuel u
    simp only [containsSub, Bool.or_eq_false_iff] at h
    cases fuel with
    | zero => simp [replaceAllF_zero, Nat.zero_sub]
    | succ f =>
      simp only [List.cons_append, replaceAllF, List.append_eq]
      rw [if_neg]
      · rw [ih h.2 f u]
        have hf : f - (s'.length + 1) = f + 1 - ((ch :: s').length + 1) := by
          simp only [List.length_cons]
          omega
        rw [hf]
      · intro hcontra
        have hpre := isPrefixOf_append_cons pat '\n' hnl (ch :: s') u
          (by simpa [List.cons_append] using hcontra)
        simp [hpre] at h

theorem replaceAllF_cons_newline (pat rep : List Char) (hne : pat ≠ [])
    (hnl : ('\n') ∉ pat) (fuel : Nat) (u : List Char) :
    replaceAllF pat rep fuel ('\n' :: u) =
      '\n' :: replaceAllF pat rep (fuel - 1) u := by
  have hnil : containsSub pat [] = false := by
    cases pat with
    | nil => exact absurd rfl hne
    | cons p pt => rfl
  simpa using replaceAllF_split pat rep hne hnl [] hnil fuel u

theorem replaceAllF_head_match (pat rep : List Char) (hne : pat ≠ [])
    (fuel : Nat) (u : List Char) :
    replaceAllF pat rep (fuel + 1) (pat ++ u) = rep ++ replaceAllF pat rep fuel u := by
  cases pat with
  | nil => exact absurd rfl hne
  | cons p pt =>
    simp only [List.cons_append, replaceAllF]
    rw [if_pos]
    · simp only [List.length_cons, List.drop_succ_cons, List.append_eq]
      rw [List.drop_left]
    · rw [isPrefixOf_eq_true_iff]
      exact ⟨u, by simp⟩

/-! The decoder rejects any text that starts with a backtick -/

theorem parseJson_cons_backtick (t : List Char) : parseJson (btChar :: t) = none := by
  unfold parseJson
  rw [List.dropWhile_cons, if_neg (by decide : ¬(jsonWs btChar = true))]
  obtain ⟨k, hk⟩ : ∃ k, 5 * (btChar :: t).length + 5 = k + 1 :=
    ⟨5 * (btChar :: t).length + 4, by omega⟩
  rw [hk]
  simp only [parseF]
  rw [if_neg (by decide), if_neg (by decide), if_neg (by decide), if_neg (by decide),
    if_neg (by decide), if_neg (by decide), if_neg (by decide), if_neg (by decide),
    if_neg (fun hcon => absurd hcon.1 (by decide)), if_neg (by decide)]

/-! Facts about the strip of leading and trailing whitespace -/

theorem dropTrailingWs_concat_nonws (B : List Char) (c : Char) (h : isPyWs c = false) :
    dropTrailingWs (B ++ [c]) = B ++ [c] := by
  unfold dropTrailingWs
  rw [List.reverse_append]
  simp only [List.reverse_cons, List.reverse_nil, List.nil_append, List.singleton_append]
  rw [List.dropWhile_cons, if_neg (by simp [h])]
  simp

theorem dropTrailingWs_concat_ws (B : List Char) (c : Char) (h : isPyWs c = true) :
    dropTrailingWs (B ++ [c]) = dropTrailingWs B := by
  unfold dropTrailingWs
  rw [List.reverse_append]
  simp only [List.reverse_cons, List.reverse_nil, List.nil_append, List.singleton_append]
  rw [List.dropWhile_cons, if_pos (by simp [h])]

theorem dropWhile_append_split (p : Char → Bool) (a b : List Char) :
    (a ++ b).dropWhile p =
      if a.dropWhile p = [] then b.dropWhile p else a.dropWhile p ++ b := by
  induction a with
  | nil => simp
  | cons c a' ih =>
    by_cases hc : p c = true
    · simp only [List.cons_append, List.dropWhile_cons, if_pos hc, ih]
    · simp only [List.cons_append, List.dropWhile_cons, if_neg hc]
      rw [if_neg (by simp)]

theorem pyStrip_newline_wrap (s : List Char) :
    pyStrip ('\n' :: (s ++ ['\n'])) = pyStrip s := by
  unfold pyStrip
  rw [List.dropWhile_cons, if_pos (by decide : isPyWs '\n' = true)]
  rw [dropWhile_append_split]
  by_cases hz : s.dropWhile isPyWs = []
  · rw [if_pos hz, hz]
    rw [show (['\n'].dropWhile isPyWs) = [] from by decide]
  · rw [if_neg hz]
    exact dropTrailingWs_concat_ws _ _ (by decide)

theorem fenceWrap_cons (s : List Char) :
    fenceWrap s = btChar :: ("``json\n".data ++ (s ++ "\n```".data)) := by
  unfold fenceWrap
  rw [show ("```json\n".data) = btChar :: "``json\n".data from rfl, List.append_assoc,
    List.cons_append]

theorem fenceWrap_concat (s : List Char) :
    fenceWrap s = ("```json\n".data ++ (s ++ "\n``".data)) ++ [btChar] := by
  unfold fenceWrap
  rw [show ("\n```".data) = "\n``".data ++ [btChar] from rfl]
  simp [List.append_assoc]

theorem fenceWrap_split (s : List Char) :
    fenceWrap s = "```json".data ++ ('\n' :: (s ++ ('\n' :: "```".data))) := by
  unfold fenceWrap
  rw [show ("```json\n".data) = "```json".data ++ ['\n'] from rfl,
    show ("\n```".data) = '\n' :: "```".data from rfl]
  simp [List.append_assoc]

theorem pyStrip_fenceWrap (s : List Char) : pyStrip (fenceWrap s) = fenceWrap s := by
  unfold pyStrip
  rw [fenceWrap_cons s, List.dropWhile_cons, if_neg (by decide : ¬(isPyWs btChar = true)),
    ← fenceWrap_cons s, fenceWrap_concat s,
    dropTrailingWs_concat_nonws _ _ (by decide), ← fenceWrap_concat s]

/-! The cleaning pass on a fenced JSON text -/

theorem cleanedText_fenceWrap (s : List Char)
    (hnc : containsSub "```".data s = false) :
    cleanedText (fenceWrap s) = pyStrip s := by
  have h7 : containsSub "```json".data s = false := by
    cases hc : containsSub "```json".data s with
    | false => rfl
    | true =>
      have h3 := containsSub_append_pat "```".data "json".data s hc
      rw [h3] at hnc
      exact absurd hnc (by simp)
  have hp1 : replaceAll "```json".data [] (fenceWrap s) =
      '\n' :: (s ++ ('\n' :: "```".data)) := by
    unfold replaceAll
    have e1 : ("```json".data).length = 7 := rfl
    have e2 : ("```".data).length = 3 := rfl
    have hlen : (fenceWrap s).length = (s.length + 11) + 1 := by
      rw [fenceWrap_split s]
      simp only [List.length_append, List.length_cons, List.length_nil, e1, e2]
      omega
    rw [hlen]
    conv_lhs => rw [fenceWrap_split s]
    rw [replaceAllF_head_match "```json".data [] (by decide) _ _]
    rw [replaceAllF_cons_newline "```json".data [] (by decide) (by decide) _ _]
    rw [replaceAllF_split "```json".data [] (by decide) (by decide) s h7 _ _]
    rw [replaceAllF_no_match "```json".data [] _ _ (by decide)]
    simp
  have hp2 : replaceAll "```".data [] ('\n' :: (s ++ ('\n' :: "```".data))) =
      '\n' :: (s ++ ['\n']) := by
    unfold replaceAll
    rw [replaceAllF_cons_newline "```".data [] (by decide) (by decide) _ _]
    rw [replaceAllF_split "```".data [] (by decide) (by decide) s hnc _ _]
    have h3 : ('\n' :: (s ++ ('\n' :: "```".data))).length - 1 - (s.length + 1) = 3 := by
      have e2 : ("```".data).length = 3 := rfl
      simp only [List.length_cons, List.length_append, List.length_nil, e2]
      omega
    rw [h3]
    rw [show replaceAllF "```".data [] 3 ("```".data) = [] from rfl]
  unfold cleanedText
  rw [hp1, hp2, pyStrip_newline_wrap]

/-! The cleaning pass leaves no fence marker behind -/

theorem leadBT_cons (c : Char) (t : List Char) :
    leadBT (c :: t) = if c = btChar then leadBT t + 1 else 0 := by
  by_cases hc : c = btChar
  · simp [leadBT, List.takeWhile_cons, hc]
  · simp [leadBT, List.takeWhile_cons, hc]

theorem ppp_isPrefixOf_iff (t : List Char) :
    (("```".data).isPrefixOf t) = true ↔ 3 ≤ leadBT t := by
  show (([btChar, btChar, btChar] : List Char).isPrefixOf t) = true ↔ 3 ≤ leadBT t
  cases t with
  | nil => simp [List.isPrefixOf, leadBT]
  | cons a t1 =>
    cases t1 with
    | nil =>
      rw [leadBT_cons]
      by_cases ha : a = btChar <;> simp [List.isPrefixOf, ha, leadBT]
    | cons b t2 =>
      cases t2 with
      | nil =>
        rw [leadBT_cons, leadBT_cons]
        by_cases ha : a = btChar <;> by_cases hb : b = btChar <;>
          simp [List.isPrefixOf, ha, hb, leadBT]
      | cons c t3 =>
        rw [leadBT_cons, leadBT_cons, leadBT_cons]
        by_cases ha : a = btChar <;> by_cases hb : b = btChar <;> by_cases hc : c = btChar <;>
          simp [List.isPrefixOf, ha, hb, hc]
        all_goals simp_all [eq_comm]

theorem replaceAllF_ppp_clean :
    ∀ (fuel : Nat) (y : List Char), y.length ≤ fuel →
      containsSub "```".data (replaceAllF "```".data [] fuel y) = false ∧
      leadBT (replaceAllF "```".data [] fuel y) ≤ 2 ∧
      leadBT (replaceAllF "```".data [] fuel y) ≤ leadBT y := by
  intro fuel
  induction fuel with
  | zero =>
    intro y hy
    have hnil : y = [] := List.length_eq_zero.mp (Nat.le_zero.mp hy)
    subst hnil
    exact ⟨by decide, by decide, by decide⟩
  | succ f ih =>
    intro y hy
    cases y with
    | nil =>
      rw [show replaceAllF "```".data [] (f + 1) ([] : List Char) = [] from rfl]
      exact ⟨by decide, by decide, by decide⟩
    | cons c rest =>
      by_cases hm : ("```".data).isPrefixOf (c :: rest) = true
      · have hred : replaceAllF "```".data [] (f + 1) (c :: rest) =
            replaceAllF "```".data [] f ((c :: rest).drop 3) := by
          simp only [replaceAllF]
          rw [if_pos hm, show ("```".data).length = 3 from rfl]
          simp
        have hlen : ((c :: rest).drop 3).length ≤ f := by
          rw [List.length_drop]
          simp only [List.length_cons] at hy ⊢
          omega
        obtain ⟨h1, h2, h3⟩ := ih _ hlen
        rw [hred]
        refine ⟨h1, h2, ?_⟩
        have hbt := (ppp_isPrefixOf_iff (c :: rest)).mp hm
        omega
      · have hred : replaceAllF "```".data [] (f + 1) (c :: rest) =
            c :: replaceAllF "```".data [] f rest := by
          simp only [replaceAllF]
          rw [if_neg hm]
        have hlen : rest.length ≤ f := by
          simp only [List.length_cons] at hy
          omega
        obtain ⟨h1, h2, h3⟩ := ih rest hlen
        rw [hred]
        by_cases hc : c = btChar
        · subst hc
          have hyl : ¬ 3 ≤ leadBT (btChar :: rest) := fun hcon =>
            hm ((ppp_isPrefixOf_iff _).mpr hcon)
          rw [leadBT_cons, if_pos rfl] at hyl
          have hnp : ("```".data).isPrefixOf
              (btChar :: replaceAllF "```".data [] f rest) = false := by
            rw [Bool.eq_false_iff]
            intro hcon
            have hbt := (ppp_isPrefixOf_iff _).mp hcon
            rw [leadBT_cons, if_pos rfl] at hbt
            omega
          refine ⟨by simp [containsSub, hnp, h1], ?_, ?_⟩
          · rw [leadBT_cons, if_pos rfl]
            omega
          · rw [leadBT_cons, if_pos rfl, leadBT_cons, if_pos rfl]
            omega
        · have hnp : ("```".data).isPrefixOf
              (c :: replaceAllF "```".data [] f rest) = false := by
            rw [Bool.eq_false_iff]
            intro hcon
            have hbt := (ppp_isPrefixOf_iff _).mp hcon
            rw [leadBT_cons, if_neg hc] at hbt
            omega
          refine ⟨by simp [containsSub, hnp, h1], ?_, ?_⟩
          · rw [leadBT_cons, if_neg hc]
            omega
          · rw [leadBT_cons, if_neg hc]
            omega

theorem cleanedText_no_fence (raw : List Char) :
    containsSub "```".data (cleanedText raw) = false ∧
    containsSub "```json".data (cleanedText raw) = false := by
  have h1 : containsSub "```".data
      (replaceAll "```".data [] (replaceAll "```json".data [] raw)) = false :=
    (replaceAllF_ppp_clean _ _ (le_refl _)).1
  have h2 := containsSub_pyStrip _ _ h1
  simp only [cleanedText]
  refine ⟨h2, ?_⟩
  cases hc : containsSub "```json".data
      (pyStrip (replaceAll "```".data [] (replaceAll "```json".data [] raw))) with
  | false => rfl
  | true =>
    have h3 := containsSub_append_pat "```".data "json".data _ hc
    rw [h3] at h2
    exact absurd h2 (by simp)

/-! The key check and vocabulary clamp -/

theorem findMissingKey_jobj (kvs : List (List Char × JValue)) :
    ∀ ks : List String,
      findMissingKey (.jobj kvs) ks =
        match ks.find? (fun k => !(hasKey kvs k)) with
        | some k => .error (.missingKeyError k)
        | none => .ok () := by
  intro ks
  induction ks with
  | nil => rfl
  | cons k ks ih =>
    simp only [findMissingKey]
    rw [show pyContains (.jobj kvs) k.data = some (hasKey kvs k) from rfl]
    cases hk : hasKey kvs k with
    | true =>
      rw [List.find?_cons_of_neg _ (by simp [hk])]
      exact ih
    | false =>
      rw [List.find?_cons_of_pos _ (by simp [hk])]

theorem validateData_jobj_ok (kvs : List (List Char × JValue)) (dv zv sv av : JValue)
    (hd : lookupLast kvs ("disease".data) = some dv)
    (hz : lookupLast kvs ("zone".data) = some zv)
    (hs : lookupLast kvs ("symptoms_line".data) = some sv)
    (ha : lookupLast kvs ("action_line".data) = some av) :
    validateData (.jobj kvs) = .ok ⟨clampDisease dv, clampZone zv, sv, av⟩ := by
  have hnone : requiredKeys.find? (fun k => !(hasKey kvs k)) = none := by
    rw [List.find?_eq_none]
    intro k hk
    simp only [requiredKeys, List.mem_cons, List.not_mem_nil, or_false] at hk
    rcases hk with rfl | rfl | rfl | rfl <;> simp [hasKey, hd, hz, hs, ha]
  have hfm : findMissingKey (.jobj kvs) requiredKeys = .ok () := by
    rw [findMissingKey_jobj, hnone]
  unfold validateData
  simp only [hfm, hd, hz, hs, ha]

theorem validateData_ok_inv (data : JValue) (r : TriageResult)
    (h : validateData data = .ok r) :
    ∃ dv zv, r.disease = clampDisease dv ∧ r.zone = clampZone zv := by
  cases data with
  | jobj kvs =>
    unfold validateData at h
    cases hfm : findMissingKey (.jobj kvs) requiredKeys with
    | error e => rw [hfm] at h; simp at h
    | ok u =>
      simp only [hfm] at h
      cases hd : lookupLast kvs ("disease".data) with
      | none => simp [hd] at h
      | some dv =>
        cases hz : lookupLast kvs ("zone".data) with
        | none => simp [hd, hz] at h
        | some zv =>
          cases hs : lookupLast kvs ("symptoms_line".data) with
          | none => simp [hd, hz, hs] at h
          | some sv =>
            cases ha : lookupLast kvs ("action_line".data) with
            | none => simp [hd, hz, hs, ha] at h
            | some av =>
              simp only [hd, hz, hs, ha, Except.ok.injEq] at h
              subst h
              exact ⟨dv, zv, rfl, rfl⟩
  | jnull =>
    unfold validateData at h
    cases hfm : findMissingKey .jnull requiredKeys with
    | error e => rw [hfm] at h; simp at h
    | ok u => rw [hfm] at h; simp at h
  | jbool b =>
    unfold validateData at h
    cases hfm : findMissingKey (.jbool b) requiredKeys with
    | error e => rw [hfm] at h; simp at h
    | ok u => rw [hfm] at h; simp at h
  | jnum n =>
    unfold validateData at h
    cases hfm : findMissingKey (.jnum n) requiredKeys with
    | error e => rw [hfm] at h; simp at h
    | ok u => rw [hfm] at h; simp at h
  | jstr s =>
    unfold validateData at h
    cases hfm : findMissingKey (.jstr s) requiredKeys with
    | error e => rw [hfm] at h; simp at h
    | ok u => rw [hfm] at h; simp at h
  | jarr xs =>
    unfold validateData at h
    cases hfm : findMissingKey (.jarr xs) requiredKeys with
    | error e => rw [hfm] at h; simp at h
    | ok u => rw [hfm] at h; simp at h

theorem clampDisease_mem (dv : JValue) :
    clampDisease dv ∈ DISEASES.map String.data := by
  have hdef : "Viral Fever (without warning signs)".data ∈ DISEASES.map String.data := by
    decide
  cases dv with
  | jstr s =>
    simp only [clampDisease]
    by_cases hs : s ∈ DISEASES.map String.data
    · rw [if_pos hs]; exact hs
    · rw [if_neg hs]; exact hdef
  | jnull => exact hdef
  | jbool b => exact hdef
  | jnum n => exact hdef
  | jarr xs => exact hdef
  | jobj kvs => exact hdef

theorem clampZone_mem (zv : JValue) :
    clampZone zv ∈ ALLOWED_ZONES.map String.data := by
  have hdef : "Yellow".data ∈ ALLOWED_ZONES.map String.data := by decide
  cases zv with
  | jstr s =>
    simp only [clampZone]
    by_cases hs : s ∈ ALLOWED_ZONES.map String.data
    · rw [if_pos hs]; exact hs
    · rw [if_neg hs]; exact hdef
  | jnull => exact hdef
  | jbool b => exact hdef
  | jnum n => exact hdef
  | jarr xs => exact hdef
  | jobj kvs => exact hdef

theorem clampDisease_default (dv : JValue) (h : isAllowedDisease dv = false) :
    clampDisease dv = "Viral Fever (without warning signs)".data := by
  cases dv with
  | jstr s =>
    simp only [isAllowedDisease, decide_eq_false_iff_not] at h
    simp only [clampDisease]
    rw [if_neg h]
  | jnull => rfl
  | jbool b => rfl
  | jnum n => rfl
  | jarr xs => rfl
  | jobj kvs => rfl

theorem clampZone_default (zv : JValue) (h : isAllowedZone zv = false) :
    clampZone zv = "Yellow".data := by
  cases zv with
  | jstr s =>
    simp only [isAllowedZone, decide_eq_false_iff_not] at h
    simp only [clampZone]
    rw [if_neg h]
  | jnull => rfl
  | jbool b => rfl
  | jnum n => rfl
  | jarr xs => rfl
  | jobj kvs => rfl

/-! The claims -/

/-- C1: the specification requires that the model reply of the
success-path example produce the public 200 response, but the analyze
endpoint raises a KeyError on the logging line 233, which subscripts
the classifier result dict with the key patient_symptoms_line that the
dict never binds: the endpoint errors instead of responding.  The
second and third conjuncts show that classification itself succeeds
exactly as specified, and that the response composition of lines
236-244, had it been reached, would produce exactly the response the
specification describes: the logging subscript is the sole divergence. -/
theorem c1_endpoint_keyerror :
    analyze heartAttackReply.data = .error (.keyError ("patient_symptoms_line")) ∧
    classifyValidate heartAttackReply.data =
      .ok ⟨"Heart Attack".data, "Red".data, .jstr ("X".data), .jstr ("Y".data)⟩ ∧
    composeResponse ⟨"Heart Attack".data, "Red".data, .jstr ("X".data), .jstr ("Y".data)⟩ =
      .ok ⟨"Red".data, "Zone: 🔴 Red – उच्च धोक्याची पातळी".data, "Heart Attack".data,
        "X".data, "Y".data⟩ :=
  ⟨rfl, rfl, rfl⟩

/-- C2: whenever the validator returns a result, its disease is one of
the 15 allowed strings, its zone is one of Red, Orange, Yellow, and the
zone label lookup of the endpoint finds the zone in the label table, so
the generic fallback label branch is never taken. -/
theorem c2_validator_vocabulary (raw : List Char) (r : TriageResult)
    (h : classifyValidate raw = .ok r) :
    r.disease ∈ DISEASES.map String.data ∧
    r.zone ∈ ALLOWED_ZONES.map String.data ∧
    (ZONE_LABELS.find? (fun p => p.fst.data == r.zone)).isSome = true := by
  have hv : ∃ data, validateData data = .ok r := by
    unfold classifyValidate at h
    cases hp : parseReply raw with
    | ok d => rw [hp] at h; exact ⟨d, h⟩
    | error e => rw [hp] at h; simp at h
  obtain ⟨data, hv⟩ := hv
  obtain ⟨dv, zv, hd, hz⟩ := validateData_ok_inv data r hv
  refine ⟨by rw [hd]; exact clampDisease_mem dv, by rw [hz]; exact clampZone_mem zv, ?_⟩
  have hzm := clampZone_mem zv
  rw [hz]
  simp only [ALLOWED_ZONES, List.map_cons, List.map_nil, List.mem_cons,
    List.not_mem_nil, or_false] at hzm
  rcases hzm with h1 | h1 | h1 <;> rw [h1] <;> decide

theorem c2_witness :
    "Heart Attack".data ∈ DISEASES.map String.data ∧
    "Red".data ∈ ALLOWED_ZONES.map String.data ∧
    (ZONE_LABELS.find? (fun p => p.fst.data == "Red".data)).isSome = true :=
  c2_validator_vocabulary heartAttackReply.data
    ⟨"Heart Attack".data, "Red".data, .jstr ("X".data), .jstr ("Y".data)⟩ rfl

/-- C3: a parsed reply carrying all four required keys whose disease
value is not one of the 15 allowed strings is not rejected: the
validator succeeds and returns the default disease. -/
theorem c3_unknown_disease_defaulted (kvs : List (List Char × JValue)) (dv : JValue)
    (hall : requiredKeys.all (fun k => hasKey kvs k) = true)
    (hdv : lookupLast kvs ("disease".data) = some dv)
    (hbad : isAllowedDisease dv = false) :
    ∃ r, validateData (.jobj kvs) = .ok r ∧
      r.disease = "Viral Fever (without warning signs)".data := by
  have h4 : hasKey kvs "disease" = true ∧ hasKey kvs "zone" = true ∧
      hasKey kvs "symptoms_line" = true ∧ hasKey kvs "action_line" = true := by
    simpa [requiredKeys, List.all_cons] using hall
  obtain ⟨zv, hzv⟩ := Option.isSome_iff_exists.mp h4.2.1
  obtain ⟨sv, hsv⟩ := Option.isSome_iff_exists.mp h4.2.2.1
  obtain ⟨av, hav⟩ := Option.isSome_iff_exists.mp h4.2.2.2
  exact ⟨⟨clampDisease dv, clampZone zv, sv, av⟩,
    validateData_jobj_ok kvs dv zv sv av hdv hzv hsv hav,
    clampDisease_default dv hbad⟩

theorem c3_witness :
    ∃ r, validateData (.jobj
        [("disease".data, .jstr ("Flu".data)), ("zone".data, .jstr ("Red".data)),
         ("symptoms_line".data, .jstr ("s1".data)),
         ("action_line".data, .jstr ("a1".data))]) = .ok r ∧
      r.disease = "Viral Fever (without warning signs)".data :=
  c3_unknown_disease_defaulted
    [("disease".data, .jstr ("Flu".data)), ("zone".data, .jstr ("Red".data)),
     ("symptoms_line".data, .jstr ("s1".data)), ("action_line".data, .jstr ("a1".data))]
    (.jstr ("Flu".data)) (by decide) rfl (by decide)

/-- C4: a parsed reply carrying all four required keys whose zone value
is not one of Red, Orange, Yellow is not rejected: the validator
succeeds and returns the zone Yellow. -/
theorem c4_unknown_zone_defaulted (kvs : List (List Char × JValue)) (zv : JValue)
    (hall : requiredKeys.all (fun k => hasKey kvs k) = true)
    (hzv : lookupLast kvs ("zone".data) = some zv)
    (hbad : isAllowedZone zv = false) :
    ∃ r, validateData (.jobj kvs) = .ok r ∧ r.zone = "Yellow".data := by
  have h4 : hasKey kvs "disease" = true ∧ hasKey kvs "zone" = true ∧
      hasKey kvs "symptoms_line" = true ∧ hasKey kvs "action_line" = true := by
    simpa [requiredKeys, List.all_cons] using hall
  obtain ⟨dv, hdv⟩ := Option.isSome_iff_exists.mp h4.1
  obtain ⟨sv, hsv⟩ := Option.isSome_iff_exists.mp h4.2.2.1
  obtain ⟨av, hav⟩ := Option.isSome_iff_exists.mp h4.2.2.2
  exact ⟨⟨clampDisease dv, clampZone zv, sv, av⟩,
    validateData_jobj_ok kvs dv zv sv av hdv hzv hsv hav,
    clampZone_default zv hbad⟩

theorem c4_witness :
    ∃ r, validateData (.jobj
        [("disease".data, .jstr ("Flu".data)), ("zone".data, .jstr ("Critical".data)),
         ("symptoms_line".data, .jstr ("s2".data)),
         ("action_line".data, .jstr ("a2".data))]) = .ok r ∧
      r.zone = "Yellow".data :=
  c4_unknown_zone_defaulted
    [("disease".data, .jstr ("Flu".data)), ("zone".data, .jstr ("Critical".data)),
     ("symptoms_line".data, .jstr ("s2".data)), ("action_line".data, .jstr ("a2".data))]
    (.jstr ("Critical".data)) (by decide) rfl (by decide)

/-- C5: a parsed reply carrying all four required keys whose disease
value exactly matches one of the 15 allowed strings is returned with
that disease unchanged. -/
theorem c5_allowed_disease_unchanged (kvs : List (List Char × JValue)) (d : List Char)
    (hall : requiredKeys.all (fun k => hasKey kvs k) = true)
    (hdv : lookupLast kvs ("disease".data) = some (.jstr d))
    (hmem : d ∈ DISEASES.map String.data) :
    ∃ r, validateData (.jobj kvs) = .ok r ∧ r.disease = d := by
  have h4 : hasKey kvs "disease" = true ∧ hasKey kvs "zone" = true ∧
      hasKey kvs "symptoms_line" = true ∧ hasKey kvs "action_line" = true := by
    simpa [requiredKeys, List.all_cons] using hall
  obtain ⟨zv, hzv⟩ := Option.isSome_iff_exists.mp h4.2.1
  obtain ⟨sv, hsv⟩ := Option.isSome_iff_exists.mp h4.2.2.1
  obtain ⟨av, hav⟩ := Option.isSome_iff_exists.mp h4.2.2.2
  refine ⟨⟨clampDisease (.jstr d), clampZone zv, sv, av⟩,
    validateData_jobj_ok kvs (.jstr d) zv sv av hdv hzv hsv hav, ?_⟩
  simp only [clampDisease]
  rw [if_pos hmem]

theorem c5_witness :
    ∃ r, validateData (.jobj
        [("disease".data, .jstr ("Heart Attack".data)), ("zone".data, .jstr ("Red".data)),
         ("symptoms_line".data, .jstr ("s3".data)),
         ("action_line".data, .jstr ("a3".data))]) = .ok r ∧
      r.disease = "Heart Attack".data :=
  c5_allowed_disease_unchanged
    [("disease".data, .jstr ("Heart Attack".data)), ("zone".data, .jstr ("Red".data)),
     ("symptoms_line".data, .jstr ("s3".data)), ("action_line".data, .jstr ("a3".data))]
    ("Heart Attack".data) (by decide) rfl (by decide)

/-- C6: a reply that parses to a JSON object missing one of the four
required keys makes the pipeline fail with the missing-key error, and
the key it names is a genuinely missing required key: no value is
silently substituted for a missing key. -/
theorem c6_missing_key_error (raw : List Char) (kvs : List (List Char × JValue))
    (hp : parseReply raw = .ok (.jobj kvs)) (k : String) (hk : k ∈ requiredKeys)
    (hmiss : hasKey kvs k = false) :
    ∃ k2, classifyValidate raw = .error (.missingKeyError k2) ∧
      k2 ∈ requiredKeys ∧ hasKey kvs k2 = false := by
  have hfind : (requiredKeys.find? (fun j => !(hasKey kvs j))).isSome = true := by
    rw [List.find?_isSome]
    exact ⟨k, hk, by simp [hmiss]⟩
  obtain ⟨k2, hk2⟩ := Option.isSome_iff_exists.mp hfind
  have hprop := List.find?_some hk2
  have hmem := List.mem_of_find?_eq_some hk2
  refine ⟨k2, ?_, hmem, by simpa using hprop⟩
  unfold classifyValidate
  rw [hp]
  show validateData (.jobj kvs) = .error (.missingKeyError k2)
  unfold validateData
  rw [findMissingKey_jobj, hk2]

theorem c6_witness :
    ∃ k2, classifyValidate missingKeysReply.data = .error (.missingKeyError k2) ∧
      k2 ∈ requiredKeys ∧
      hasKey [("disease".data, JValue.jstr ("X".data))] k2 = false :=
  c6_missing_key_error missingKeysReply.data [("disease".data, .jstr ("X".data))] rfl
    ("zone") (by decide) (by decide)

/-- C7: a raw reply that the decoder rejects both directly and after
the fence-marker cleaning makes the pipeline fail with the JSON decode
error (MalformedModelOutput in the specification) rather than return a
fabricated result. -/
theorem c7_malformed_reply_fails (raw : List Char)
    (h1 : parseJson (pyStrip raw) = none)
    (h2 : parseJson (cleanedText (pyStrip raw)) = none) :
    classifyValidate raw = .error .jsonDecodeError := by
  simp only [classifyValidate, parseReply]
  rw [h1, h2]

theorem c7_witness : classifyValidate proseReply.data = .error .jsonDecodeError :=
  c7_malformed_reply_fails proseReply.data rfl rfl

/-- C8, counterexample: the quoted-backtick text is valid JSON (a JSON
string containing three backticks), yet wrapping it in fences changes
the parse: unfenced it parses to the string of three backticks, fenced
it parses to the empty string, because the fallback removes the fence
marker inside the string value as well.  So fenced and unfenced parses
are not identical for every JSON string. -/
theorem c8_counterexample :
    parseReply ("\"```\"").data = .ok (.jstr ("```".data)) ∧
    parseReply (fenceWrap ("\"```\"").data) = .ok (.jstr []) :=
  ⟨rfl, rfl⟩

/-- C8, amended: for every JSON text (as the validator sees it after
its strip) that does not contain the three-backtick fence marker as a
substring, the fenced and unfenced forms parse to exactly the same
object. -/
theorem c8_fenced_roundtrip (s : List Char) (v : JValue)
    (hnc : containsSub "```".data s = false)
    (hp : parseJson (pyStrip s) = some v) :
    parseReply (fenceWrap s) = .ok v ∧ parseReply s = .ok v := by
  constructor
  · simp only [parseReply]
    rw [pyStrip_fenceWrap]
    have hb : parseJson (fenceWrap s) = none := by
      rw [fenceWrap_cons s]
      exact parseJson_cons_backtick _
    rw [hb, cleanedText_fenceWrap s hnc, hp]
  · simp only [parseReply]
    rw [hp]

theorem c8_fenced_roundtrip_witness :
    parseReply (fenceWrap ("\x7b\"a\": true\x7d").data) =
      .ok (.jobj [("a".data, .jbool true)]) ∧
    parseReply ("\x7b\"a\": true\x7d").data = .ok (.jobj [("a".data, .jbool true)]) :=
  c8_fenced_roundtrip ("\x7b\"a\": true\x7d").data (.jobj [("a".data, .jbool true)])
    (by decide) rfl

/-- C9: the fallback cleaning removes every occurrence of the two
fence markers anywhere in the reply, so the text that is re-parsed
never contains either marker; and the concrete fenced reply whose JSON
string value itself contains a fence marker parses with that interior
marker removed from the value, showing the removal is global and not
limited to a surrounding fence pair. -/
theorem c9_fallback_removes_all_fences :
    (∀ raw : List Char,
      containsSub "```".data (cleanedText raw) = false ∧
      containsSub "```json".data (cleanedText raw) = false) ∧
    parseReply c9ExampleReply.data =
      .ok (.jobj [("note".data, .jstr ("use  fences".data))]) :=
  ⟨cleanedText_no_fence, rfl⟩

/-- C10: when at least two required keys are missing from the decoded
object, the error names exactly the first missing key in the fixed
check order disease, zone, symptoms_line, action_line (the first
result of find? over the key list in that order). -/
theorem c10_first_missing_key_named (kvs : List (List Char × JValue)) (k : String)
    (h2 : 2 ≤ (requiredKeys.filter (fun j => !(hasKey kvs j))).length)
    (hfind : requiredKeys.find? (fun j => !(hasKey kvs j)) = some k) :
    validateData (.jobj kvs) = .error (.missingKeyError k) := by
  unfold validateData
  rw [findMissingKey_jobj, hfind]

theorem c10_witness :
    validateData (.jobj []) = .error (.missingKeyError ("disease")) :=
  c10_first_missing_key_named [] ("disease") (by decide) rfl

end SymptomChecker
